import Mathlib

/-!
Shallow embedding of the ETA/ATA deep-dive pipeline implemented in
`src/app.py`, and proofs of the specified properties.

Modelling choices:
* Timestamps are integers (seconds on the pandas datetime axis); spreads in
  hours are rational numbers.
* The permissive date grammar used by `pd.to_datetime` lives in pandas, not
  in this repository; it is abstracted as a parameter `P : String → Option Int`
  (`none` on strings the grammar cannot interpret).  The `errors="coerce"`
  behaviour of the call in `src/app.py` line 110-111 is `to_datetime_coerce`.
* A dataframe is a list of rows; pandas boolean-mask selection is `List.filter`
  (stable, order-preserving), `groupby` aggregation is `aggregateGroup` over
  the sub-list of rows sharing a `bol_id`.
-/

/-- Bucket labels produced by `classify_spread_hours` (src/app.py lines 52-60). -/
inductive Bucket where
  | NO_VALID_TIMESTAMP
  | NO_DIFFERENCE
  | BETWEEN_1_AND_24_HOURS
  | MORE_THAN_24_HOURS
deriving DecidableEq, Repr

/-- Embedding of `classify_spread_hours` (src/app.py lines 52-60).  `none`
stands for Python `None` and float `NaN` (the `value is None or pd.isna(value)`
branch); the remaining branches follow the source line by line, the last
`return` being an unconditional fall-through. -/
def classify_spread_hours (value : Option ℚ) : Bucket :=
  match value with
  | none => Bucket.NO_VALID_TIMESTAMP
  | some v =>
    if v = 0 then Bucket.NO_DIFFERENCE
    else if 0 < v ∧ v ≤ 24 then Bucket.BETWEEN_1_AND_24_HOURS
    else Bucket.MORE_THAN_24_HOURS

/-- Logical fields of one input row after the column-role mapping of
src/app.py lines 84-89: every cell is text (`dtype=str`, `fillna("")`). -/
structure InputRow where
  identifier : String
  shipment_type : String
  bol_id : String
  eta : String
  ata : String
deriving DecidableEq, Repr

/-- Model of Python `str.strip()` (src/app.py `.str.strip()`): drop leading
and trailing whitespace. -/
def pyStrip (s : String) : String :=
  String.mk
    (((s.data.dropWhile Char.isWhitespace).reverse.dropWhile Char.isWhitespace).reverse)

/-- Model of Python `str.upper()` (src/app.py `.str.upper()`): uppercase each
character (ASCII range, which covers the vocabulary compared against). -/
def pyUpper (s : String) : String :=
  String.mk (s.data.map Char.toUpper)

/-- Row classifier of src/app.py lines 92-97: `shipment_type`, stripped and
uppercased, must be exactly CONTAINER or CONTAINER_ID (`isin`). -/
def isContainer (r : InputRow) : Bool :=
  let s := pyUpper (pyStrip r.shipment_type)
  s == "CONTAINER" || s == "CONTAINER_ID"

/-- Container-row selection (`containers = work_df[...]`, src/app.py
lines 92-97): a stable boolean-mask filter of the input rows. -/
def containersOf (rows : List InputRow) : List InputRow :=
  rows.filter isContainer

/-- Modelled from the spec: the general-purpose date grammar behind
`pd.to_datetime` is external to this repository (pandas/dateutil), so it is
abstracted as a parameter `P : String → Option Int`.  `to_datetime_coerce P`
models `pd.to_datetime(s, errors="coerce")` at src/app.py lines 110-111: an
empty string, and any string `P` cannot interpret, coerces to `none` (NaT)
instead of raising. -/
def to_datetime_coerce (P : String → Option Int) (s : String) : Option Int :=
  if s = "" then none else P s

/-- Fold of a commutative-associative binary operation over a list, `none` on
the empty list: the shape of a pandas `min`/`max` aggregation, which skips
NaT values (the callers pass the list of successfully parsed timestamps). -/
def optStep (f : Int → Int → Int) (x : Int) (acc : Option Int) : Option Int :=
  match acc with
  | none => some x
  | some y => some (f x y)

def optFold (f : Int → Int → Int) (l : List Int) : Option Int :=
  l.foldr (optStep f) none

/-- Group minimum of parsed timestamps (`eta_min=("eta_dt", "min")`). -/
def minOfList (l : List Int) : Option Int :=
  optFold min l

/-- Group maximum of parsed timestamps (`eta_max=("eta_dt", "max")`). -/
def maxOfList (l : List Int) : Option Int :=
  optFold max l

/-- Spread in hours between min and max timestamp (src/app.py lines 131-140):
`(max - min).dt.total_seconds() / 3600.0`; NaT minus NaT gives NaN, modelled
as `none`. -/
def spread_hours (mn mx : Option Int) : Option ℚ :=
  match mn, mx with
  | some a, some b => some (((b : ℚ) - (a : ℚ)) / 3600)
  | _, _ => none

/-- One row of the per-BOL aggregation `bol_spread` (src/app.py lines
117-148): counts, extrema, spreads and buckets for one `bol_id` group. -/
structure BolAggregate where
  n_containers : Nat
  n_eta_present : Nat
  n_eta_missing : Nat
  n_ata_present : Nat
  n_ata_missing : Nat
  eta_min : Option Int
  eta_max : Option Int
  ata_min : Option Int
  ata_max : Option Int
  eta_spread_hours : Option ℚ
  ata_spread_hours : Option ℚ
  eta_spread_bucket : Bucket
  ata_spread_bucket : Bucket
deriving DecidableEq, Repr

/-- Aggregation of one `bol_id` group (src/app.py lines 110-148): the source
parses `eta_dt`/`ata_dt` per row before grouping; parsing commutes with the
group filter, so it is applied here to the rows of the group.  Presence
counts are on the stripped raw strings; min/max are over the successfully
parsed timestamps; spreads and buckets are derived exactly as in lines
131-148. -/
def aggregateGroup (P : String → Option Int) (g : List InputRow) : BolAggregate :=
  let etaTs := g.filterMap (fun r => to_datetime_coerce P r.eta)
  let ataTs := g.filterMap (fun r => to_datetime_coerce P r.ata)
  let emin := minOfList etaTs
  let emax := maxOfList etaTs
  let amin := minOfList ataTs
  let amax := maxOfList ataTs
  let esp := spread_hours emin emax
  let asp := spread_hours amin amax
  { n_containers := g.length
    n_eta_present := g.countP (fun r => !(pyStrip r.eta == ""))
    n_eta_missing := g.countP (fun r => pyStrip r.eta == "")
    n_ata_present := g.countP (fun r => !(pyStrip r.ata == ""))
    n_ata_missing := g.countP (fun r => pyStrip r.ata == "")
    eta_min := emin
    eta_max := emax
    ata_min := amin
    ata_max := amax
    eta_spread_hours := esp
    ata_spread_hours := asp
    eta_spread_bucket := classify_spread_hours esp
    ata_spread_bucket := classify_spread_hours asp }

/-- Rows of one `groupby("bol_id")` group: exact string equality on the raw
key (src/app.py line 114). -/
def groupRows (b : String) (l : List InputRow) : List InputRow :=
  l.filter (fun r => r.bol_id == b)

/-- Distinct `bol_id` keys among the container rows: the index of
`bol_spread` (one aggregate row per distinct key). -/
def bolIds (rows : List InputRow) : List String :=
  ((containersOf rows).map (fun r => r.bol_id)).dedup

/-- Aggregate of the group of `b` in the whole-pipeline run on `rows`
(filter to containers, group by `bol_id`, aggregate). -/
def bolAggregateOf (P : String → Option Int) (rows : List InputRow) (b : String) :
    BolAggregate :=
  aggregateGroup P (groupRows b (containersOf rows))

/-- Mixed-ATA-presence test of src/app.py lines 182-186:
`n_ata_present > 0 & n_ata_missing > 0` on the aggregate row of `b`. -/
def mixedQualifies (P : String → Option Int) (rows : List InputRow) (b : String) :
    Bool :=
  decide (0 < (bolAggregateOf P rows b).n_ata_present) &&
    decide (0 < (bolAggregateOf P rows b).n_ata_missing)

/-- `mixed_ata_bols` (src/app.py lines 182-186): the `bol_id` keys of
`bol_spread` whose aggregate has both ATA present and ATA missing rows. -/
def mixed_ata_bols (P : String → Option Int) (rows : List InputRow) : List String :=
  (bolIds rows).filter (mixedQualifies P rows)

/-- `bol_mixed_ata_presence_detail` (src/app.py lines 188-190): the container
rows whose `bol_id` is in `mixed_ata_bols`, in input order (stable mask). -/
def bol_mixed_ata_presence_detail (P : String → Option Int) (rows : List InputRow) :
    List InputRow :=
  (containersOf rows).filter (fun r => (mixed_ata_bols P rows).contains r.bol_id)

/-- Metric column of the summary table (src/app.py lines 202-246). -/
inductive Metric where
  | ETA
  | ATA
  | ATA_MIXED_PRESENCE
deriving DecidableEq, Repr

/-- One row of `summary_df` (src/app.py lines 248-250). -/
structure SummaryRow where
  metric : Metric
  bucket : String
  description : String
  count : Nat
deriving DecidableEq, Repr

/-- String label of a bucket as it appears in the `bucket` column. -/
def bucketLabel : Bucket → String
  | Bucket.NO_VALID_TIMESTAMP => "NO_VALID_TIMESTAMP"
  | Bucket.NO_DIFFERENCE => "NO_DIFFERENCE"
  | Bucket.BETWEEN_1_AND_24_HOURS => "BETWEEN_1_AND_24_HOURS"
  | Bucket.MORE_THAN_24_HOURS => "MORE_THAN_24_HOURS"

/-- `bucket_descriptions` dict of src/app.py lines 194-200, with the
`dict.get(bucket, bucket)` fallback of lines 213 and 231. -/
def bucketDescription (label : String) : String :=
  if label = "NO_DIFFERENCE" then ("Spread = 0 hours")
  else if label = "BETWEEN_1_AND_24_HOURS" then ("Spread > 0 and <= 24 hours")
  else if label = "MORE_THAN_24_HOURS" then ("Spread > 24 hours")
  else if label = "NO_VALID_TIMESTAMP" then
    "No parsable timestamps for this metric in the BOL"
  else if label = "MIXED_PRESENT_AND_MISSING" then
    "BOLs where some containers have ATA and others do not"
  else label

/-- Number of BOLs whose ETA spread falls in bucket `bu`: one entry of
`value_counts` over the `eta_spread_bucket` column (src/app.py lines
202-207). -/
def etaBucketCount (P : String → Option Int) (rows : List InputRow) (bu : Bucket) :
    Nat :=
  (bolIds rows).countP (fun b => (bolAggregateOf P rows b).eta_spread_bucket == bu)

/-- Number of BOLs whose ATA spread falls in bucket `bu` (src/app.py lines
221-225). -/
def ataBucketCount (P : String → Option Int) (rows : List InputRow) (bu : Bucket) :
    Nat :=
  (bolIds rows).countP (fun b => (bolAggregateOf P rows b).ata_spread_bucket == bu)

/-- All four bucket labels.  `value_counts().to_dict()` iterates the observed
labels in a count-derived order that pandas leaves unspecified among ties;
the emitted set of rows is order-independent, so the labels are enumerated
here in a fixed order. -/
def allBuckets : List Bucket :=
  [Bucket.NO_VALID_TIMESTAMP, Bucket.NO_DIFFERENCE,
    Bucket.BETWEEN_1_AND_24_HOURS, Bucket.MORE_THAN_24_HOURS]

/-- Summary rows of one metric over an arbitrary label enumeration: a label
with count zero is absent from `value_counts`, hence emits no row
(src/app.py lines 208-218 and 226-236). -/
def bucketRowsAux (m : Metric) (cnt : Bucket → Nat) (bus : List Bucket) :
    List SummaryRow :=
  bus.filterMap fun bu =>
    if cnt bu = 0 then none
    else
      some
        { metric := m
          bucket := bucketLabel bu
          description := bucketDescription (bucketLabel bu)
          count := cnt bu }

/-- Summary rows of one metric (the loop over `eta_counts.items()` resp.
`ata_counts.items()`). -/
def bucketRows (m : Metric) (cnt : Bucket → Nat) : List SummaryRow :=
  bucketRowsAux m cnt allBuckets

/-- The always-emitted mixed-presence summary row (src/app.py lines
239-246). -/
def mixedSummaryRow (P : String → Option Int) (rows : List InputRow) : SummaryRow :=
  { metric := Metric.ATA_MIXED_PRESENCE
    bucket := "MIXED_PRESENT_AND_MISSING"
    description := bucketDescription ("MIXED_PRESENT_AND_MISSING")
    count := (mixed_ata_bols P rows).length }

/-- `summary_df` (src/app.py lines 193-250): ETA bucket rows, then ATA bucket
rows, then the single mixed-presence row last. -/
def summaryRows (P : String → Option Int) (rows : List InputRow) : List SummaryRow :=
  bucketRows Metric.ETA (etaBucketCount P rows) ++
    bucketRows Metric.ATA (ataBucketCount P rows) ++
      [mixedSummaryRow P rows]

/-- C1: the spread classifier sends `none` to NO_VALID_TIMESTAMP, `0` to
NO_DIFFERENCE, every spread in `(0, 24]` (24.0 included) to
BETWEEN_1_AND_24_HOURS, every spread above 24 (24.0000001 included) to
MORE_THAN_24_HOURS, and every input lands in one of these four buckets. -/
theorem classify_spread_hours_spec :
    classify_spread_hours none = Bucket.NO_VALID_TIMESTAMP ∧
    classify_spread_hours (some 0) = Bucket.NO_DIFFERENCE ∧
    (∀ v : ℚ, 0 < v → v ≤ 24 →
      classify_spread_hours (some v) = Bucket.BETWEEN_1_AND_24_HOURS) ∧
    (∀ v : ℚ, 24 < v →
      classify_spread_hours (some v) = Bucket.MORE_THAN_24_HOURS) ∧
    classify_spread_hours (some 24) = Bucket.BETWEEN_1_AND_24_HOURS ∧
    classify_spread_hours (some (240000001 / 10000000)) = Bucket.MORE_THAN_24_HOURS ∧
    (∀ v : Option ℚ,
      classify_spread_hours v = Bucket.NO_VALID_TIMESTAMP ∨
      classify_spread_hours v = Bucket.NO_DIFFERENCE ∨
      classify_spread_hours v = Bucket.BETWEEN_1_AND_24_HOURS ∨
      classify_spread_hours v = Bucket.MORE_THAN_24_HOURS) := by
  refine ⟨rfl, by norm_num [classify_spread_hours], ?_, ?_, ?_, ?_, ?_⟩
  · intro v h1 h2
    simp only [classify_spread_hours]
    rw [if_neg h1.ne', if_pos ⟨h1, h2⟩]
  · intro v h
    have h0 : (0 : ℚ) < v := lt_trans (by norm_num) h
    simp only [classify_spread_hours]
    rw [if_neg h0.ne', if_neg (by push_neg; intro _; linarith)]
  · norm_num [classify_spread_hours]
  · norm_num [classify_spread_hours]
  · intro v
    match v with
    | none => exact Or.inl rfl
    | some x =>
      simp only [classify_spread_hours]
      split_ifs <;> simp

/-- Witness for C1: the half-open bucket rule applied at the concrete spread 12. -/
theorem classify_spread_hours_spec_witness :
    classify_spread_hours (some 12) = Bucket.BETWEEN_1_AND_24_HOURS :=
  classify_spread_hours_spec.2.2.1 12 (by norm_num) (by norm_num)

/-- C10: a negative spread is classified MORE_THAN_24_HOURS, because the final
branch of `classify_spread_hours` is an unconditional fall-through rather than
a `spread > 24` test. -/
theorem classify_spread_hours_neg (v : ℚ) (h : v < 0) :
    classify_spread_hours (some v) = Bucket.MORE_THAN_24_HOURS := by
  simp only [classify_spread_hours]
  rw [if_neg h.ne, if_neg (by push_neg; intro h0; linarith)]

/-- Witness for C10: the classifier at the concrete spread -1. -/
theorem classify_spread_hours_neg_witness :
    classify_spread_hours (some (-1)) = Bucket.MORE_THAN_24_HOURS :=
  classify_spread_hours_neg (-1) (by norm_num)

/-- Helper: a Boolean predicate and its negation partition a count. -/
theorem countP_not_add_countP (p : InputRow → Bool) (l : List InputRow) :
    l.countP (fun a => !(p a)) + l.countP p = l.length := by
  induction l with
  | nil => rfl
  | cons x t ih =>
    by_cases h : p x = true <;> simp [List.countP_cons, h] <;> omega

/-- C3: in every per-BOL aggregate, ETA present plus ETA missing counts equal
the container count, and likewise for ATA. -/
theorem bolAggregate_counts_invariant (P : String → Option Int)
    (rows : List InputRow) (b : String) :
    (bolAggregateOf P rows b).n_eta_present + (bolAggregateOf P rows b).n_eta_missing
        = (bolAggregateOf P rows b).n_containers ∧
    (bolAggregateOf P rows b).n_ata_present + (bolAggregateOf P rows b).n_ata_missing
        = (bolAggregateOf P rows b).n_containers := by
  simp only [bolAggregateOf, aggregateGroup]
  exact ⟨countP_not_add_countP _ _, countP_not_add_countP _ _⟩

/-- C6: the row classifier accepts exactly the rows whose stripped, uppercased
shipment type is the literal string CONTAINER or CONTAINER_ID, and a rejected
row is absent from the container selection every downstream output is built
from. -/
theorem isContainer_spec :
    (∀ r : InputRow, isContainer r = true ↔
      (pyUpper (pyStrip r.shipment_type) = "CONTAINER" ∨
        pyUpper (pyStrip r.shipment_type) = "CONTAINER_ID")) ∧
    (∀ (rows : List InputRow) (r : InputRow),
      isContainer r = false → r ∉ containersOf rows) := by
  constructor
  · intro r
    simp [isContainer]
  · intro rows r h hmem
    rw [containersOf, List.mem_filter] at hmem
    rw [h] at hmem
    exact absurd hmem.2 (by simp)

/-- Concrete non-container row used by witnesses. -/
def truckRow : InputRow :=
  { identifier := "c9", shipment_type := "TRUCK", bol_id := "B9", eta := "", ata := "" }

/-- Witness for C6: the TRUCK row is rejected and filtered out. -/
theorem isContainer_spec_witness : truckRow ∉ containersOf [truckRow] :=
  isContainer_spec.2 [truckRow] truckRow (by decide)

/-- C4: presence and container counts of a BOL group depend only on whether
the stripped raw strings are empty, never on the parser; a row whose ETA text
is non-empty but unparsable raises the present count by one while leaving the
group minimum and maximum timestamps unchanged. -/
theorem presence_counts_spec :
    (∀ (P1 P2 : String → Option Int) (g : List InputRow),
      (aggregateGroup P1 g).n_containers = (aggregateGroup P2 g).n_containers ∧
      (aggregateGroup P1 g).n_eta_present = (aggregateGroup P2 g).n_eta_present ∧
      (aggregateGroup P1 g).n_eta_missing = (aggregateGroup P2 g).n_eta_missing ∧
      (aggregateGroup P1 g).n_ata_present = (aggregateGroup P2 g).n_ata_present ∧
      (aggregateGroup P1 g).n_ata_missing = (aggregateGroup P2 g).n_ata_missing) ∧
    (∀ (P : String → Option Int) (g : List InputRow),
      (aggregateGroup P g).n_eta_present = g.countP (fun r => !(pyStrip r.eta == "")) ∧
      (aggregateGroup P g).n_ata_present = g.countP (fun r => !(pyStrip r.ata == ""))) ∧
    (∀ (P : String → Option Int) (r : InputRow) (g : List InputRow),
      to_datetime_coerce P r.eta = none → ¬(pyStrip r.eta = "") →
      (aggregateGroup P (r :: g)).n_eta_present = (aggregateGroup P g).n_eta_present + 1 ∧
      (aggregateGroup P (r :: g)).eta_min = (aggregateGroup P g).eta_min ∧
      (aggregateGroup P (r :: g)).eta_max = (aggregateGroup P g).eta_max) := by
  refine ⟨?_, ?_, ?_⟩
  · intro P1 P2 g
    simp [aggregateGroup]
  · intro P g
    simp [aggregateGroup]
  · intro P r g hparse hne
    have hcons :
        (r :: g).filterMap (fun r => to_datetime_coerce P r.eta)
          = g.filterMap (fun r => to_datetime_coerce P r.eta) := by
      rw [List.filterMap_cons, hparse]
    refine ⟨?_, ?_, ?_⟩
    · simp only [aggregateGroup]
      rw [List.countP_cons]
      simp [hne]
    · simp only [aggregateGroup, hcons]
    · simp only [aggregateGroup, hcons]

/-- Concrete parser used by witnesses: interprets nothing. -/
def noParse : String → Option Int := fun _ => none

/-- Concrete container row with a non-empty, unparsable ETA, used by
witnesses. -/
def garbageEtaRow : InputRow :=
  { identifier := "c1", shipment_type := "CONTAINER", bol_id := "B1",
    eta := "garbage", ata := "" }

/-- Witness for C4: the unparsable-but-present clause at a concrete row. -/
theorem presence_counts_spec_witness :
    (aggregateGroup noParse [garbageEtaRow]).n_eta_present
        = (aggregateGroup noParse []).n_eta_present + 1 ∧
    (aggregateGroup noParse [garbageEtaRow]).eta_min
        = (aggregateGroup noParse []).eta_min ∧
    (aggregateGroup noParse [garbageEtaRow]).eta_max
        = (aggregateGroup noParse []).eta_max :=
  presence_counts_spec.2.2 noParse garbageEtaRow [] (by rfl) (by decide)

/-- C7: coerced parsing sends the empty string, and every string the
underlying grammar cannot interpret, to `none` rather than a default or an
exception (the embedding is a total function into `Option`), and a group all
of whose ETA texts are unparsable gets `none` extrema, a `none` spread and
the NO_VALID_TIMESTAMP bucket. -/
theorem to_datetime_coerce_spec :
    (∀ P : String → Option Int, to_datetime_coerce P ("") = none) ∧
    (∀ (P : String → Option Int) (s : String),
      P s = none → to_datetime_coerce P s = none) ∧
    (∀ (P : String → Option Int) (g : List InputRow),
      (∀ r ∈ g, to_datetime_coerce P r.eta = none) →
      (aggregateGroup P g).eta_min = none ∧
      (aggregateGroup P g).eta_max = none ∧
      (aggregateGroup P g).eta_spread_hours = none ∧
      (aggregateGroup P g).eta_spread_bucket = Bucket.NO_VALID_TIMESTAMP) := by
  refine ⟨fun P => rfl, ?_, ?_⟩
  · intro P s h
    simp [to_datetime_coerce, h]
  · intro P g h
    have hnil : g.filterMap (fun r => to_datetime_coerce P r.eta) = [] := by
      rw [List.filterMap_eq_nil_iff]
      exact h
    simp [aggregateGroup, hnil, minOfList, maxOfList, optFold, spread_hours,
      classify_spread_hours]

/-- Witness for C7: a group with one unparsable ETA at the concrete
no-interpretation parser. -/
theorem to_datetime_coerce_spec_witness :
    (aggregateGroup noParse [garbageEtaRow]).eta_min = none ∧
    (aggregateGroup noParse [garbageEtaRow]).eta_max = none ∧
    (aggregateGroup noParse [garbageEtaRow]).eta_spread_hours = none ∧
    (aggregateGroup noParse [garbageEtaRow]).eta_spread_bucket
        = Bucket.NO_VALID_TIMESTAMP :=
  to_datetime_coerce_spec.2.2 noParse [garbageEtaRow]
    (by intro r hr; simp at hr; subst hr; rfl)

/-- Helper: the distinct keys of `bol_spread` are exactly the `bol_id` values
of container rows. -/
theorem mem_bolIds_iff (rows : List InputRow) (b : String) :
    b ∈ bolIds rows ↔ ∃ r ∈ containersOf rows, r.bol_id = b := by
  simp [bolIds, List.mem_dedup, List.mem_map]

/-- Helper: a positive ATA-present count puts the key among the container
rows' keys. -/
theorem mem_bolIds_of_ata_present (P : String → Option Int) (rows : List InputRow)
    (b : String) (h : 0 < (bolAggregateOf P rows b).n_ata_present) :
    b ∈ bolIds rows := by
  simp only [bolAggregateOf, aggregateGroup, List.countP_pos_iff] at h
  obtain ⟨r, hr, -⟩ := h
  rw [groupRows, List.mem_filter] at hr
  exact (mem_bolIds_iff rows b).mpr ⟨r, hr.1, by simpa using hr.2⟩

/-- Helper: on a container row, the `isin(mixed_ata_bols)` mask coincides
with the mixed-presence test of the row's own key. -/
theorem contains_mixed_eq (P : String → Option Int) (rows : List InputRow)
    (r : InputRow) :
    (mixed_ata_bols P rows).contains r.bol_id = mixedQualifies P rows r.bol_id := by
  rw [Bool.eq_iff_iff]
  constructor
  · intro h
    have hmem : r.bol_id ∈ mixed_ata_bols P rows := by simpa using h
    rw [mixed_ata_bols, List.mem_filter] at hmem
    exact hmem.2
  · intro h
    have h1 : 0 < (bolAggregateOf P rows r.bol_id).n_ata_present := by
      rw [mixedQualifies, Bool.and_eq_true, decide_eq_true_eq, decide_eq_true_eq] at h
      exact h.1
    have hmem : r.bol_id ∈ mixed_ata_bols P rows := by
      rw [mixed_ata_bols, List.mem_filter]
      exact ⟨mem_bolIds_of_ata_present P rows r.bol_id h1, h⟩
    simpa using hmem

/-- Helper: the mixed-presence detail is the stable filter of the container
rows by the mixed-presence test of their own key. -/
theorem detail_eq_filter (P : String → Option Int) (rows : List InputRow) :
    bol_mixed_ata_presence_detail P rows
      = (containersOf rows).filter (fun r => mixedQualifies P rows r.bol_id) := by
  rw [bol_mixed_ata_presence_detail]
  exact List.filter_congr (fun r _ => contains_mixed_eq P rows r)

/-- C2: a BOL has rows in the mixed-ATA detail iff its aggregate has both a
positive ATA-present and a positive ATA-missing count; in that case its
detail rows are exactly the container rows carrying that key, in input order
(both sides are stable filters of the same list); if no BOL qualifies the
detail is empty. -/
theorem mixed_detail_spec (P : String → Option Int) (rows : List InputRow) :
    (∀ b : String,
      (∃ r ∈ bol_mixed_ata_presence_detail P rows, r.bol_id = b) ↔
        (0 < (bolAggregateOf P rows b).n_ata_present ∧
          0 < (bolAggregateOf P rows b).n_ata_missing)) ∧
    (∀ b : String,
      0 < (bolAggregateOf P rows b).n_ata_present →
      0 < (bolAggregateOf P rows b).n_ata_missing →
      (bol_mixed_ata_presence_detail P rows).filter (fun r => r.bol_id == b)
        = (containersOf rows).filter (fun r => r.bol_id == b)) ∧
    ((∀ b : String,
        ¬(0 < (bolAggregateOf P rows b).n_ata_present ∧
          0 < (bolAggregateOf P rows b).n_ata_missing)) →
      bol_mixed_ata_presence_detail P rows = []) := by
  refine ⟨?_, ?_, ?_⟩
  · intro b
    constructor
    · rintro ⟨r, hrdet, rfl⟩
      rw [detail_eq_filter, List.mem_filter] at hrdet
      have h := hrdet.2
      rw [mixedQualifies, Bool.and_eq_true, decide_eq_true_eq, decide_eq_true_eq] at h
      exact h
    · rintro ⟨h1, h2⟩
      have hex : ∃ r ∈ groupRows b (containersOf rows), True := by
        simp only [bolAggregateOf, aggregateGroup, List.countP_pos_iff] at h1
        obtain ⟨r, hr, -⟩ := h1
        exact ⟨r, hr, trivial⟩
      obtain ⟨r, hr, -⟩ := hex
      rw [groupRows, List.mem_filter] at hr
      have hb : r.bol_id = b := by simpa using hr.2
      refine ⟨r, ?_, hb⟩
      rw [detail_eq_filter, List.mem_filter]
      refine ⟨hr.1, ?_⟩
      rw [hb, mixedQualifies, Bool.and_eq_true, decide_eq_true_eq, decide_eq_true_eq]
      exact ⟨h1, h2⟩
  · intro b h1 h2
    rw [detail_eq_filter, List.filter_filter]
    apply List.filter_congr
    intro r hr
    by_cases hb : r.bol_id = b
    · have hq : mixedQualifies P rows b = true := by
        rw [mixedQualifies, Bool.and_eq_true, decide_eq_true_eq, decide_eq_true_eq]
        exact ⟨h1, h2⟩
      simp [hb, hq]
    · simp [hb]
  · intro h
    rw [detail_eq_filter]
    apply List.filter_eq_nil_iff.mpr
    intro r _
    intro hq
    rw [mixedQualifies, Bool.and_eq_true, decide_eq_true_eq, decide_eq_true_eq] at hq
    exact h r.bol_id hq

/-- Concrete input of the mixed-presence scenario: one BOL with an ATA
present on one container and missing on the other, plus a lone BOL. -/
def mixedRows : List InputRow :=
  [{ identifier := "c1", shipment_type := "CONTAINER", bol_id := "B3",
     eta := "", ata := "2024-02-01" },
   { identifier := "c2", shipment_type := "CONTAINER_ID", bol_id := "B3",
     eta := "", ata := "" },
   { identifier := "c3", shipment_type := "CONTAINER", bol_id := "B4",
     eta := "", ata := "" }]

/-- Witness for C2: on the concrete mixed scenario the detail rows of B3 are
exactly its container rows. -/
theorem mixed_detail_spec_witness :
    (bol_mixed_ata_presence_detail noParse mixedRows).filter
        (fun r => r.bol_id == "B3")
      = (containersOf mixedRows).filter (fun r => r.bol_id == "B3") :=
  (mixed_detail_spec noParse mixedRows).2.1 ("B3") (by decide) (by decide)

/-- Helper: folding a commutative, left-commutative operation is invariant
under permutation of the list. -/
theorem optFold_perm (f : Int → Int → Int)
    (hc : ∀ a b : Int, f a b = f b a)
    (hl : ∀ a b c : Int, f a (f b c) = f b (f a c))
    {l1 l2 : List Int} (h : l1.Perm l2) :
    optFold f l1 = optFold f l2 := by
  induction h with
  | nil => rfl
  | cons x _ ih =>
    simp only [optFold, List.foldr_cons] at ih ⊢
    rw [ih]
  | swap x y t =>
    simp only [optFold, List.foldr_cons]
    cases ht : t.foldr (optStep f) none with
    | none => simp [optStep, hc x y]
    | some z => simp [optStep, hl x y z]
  | trans _ _ ih1 ih2 => exact ih1.trans ih2

/-- Helper: the per-group aggregation is invariant under permutation of the
group's rows. -/
theorem aggregateGroup_perm (P : String → Option Int) {g1 g2 : List InputRow}
    (h : g1.Perm g2) : aggregateGroup P g1 = aggregateGroup P g2 := by
  have hEta := h.filterMap (fun r => to_datetime_coerce P r.eta)
  have hAta := h.filterMap (fun r => to_datetime_coerce P r.ata)
  simp only [aggregateGroup, minOfList, maxOfList]
  rw [h.length_eq, h.countP_eq, h.countP_eq, h.countP_eq, h.countP_eq,
    optFold_perm min min_comm min_left_comm hEta,
    optFold_perm max max_comm max_left_comm hEta,
    optFold_perm min min_comm min_left_comm hAta,
    optFold_perm max max_comm max_left_comm hAta]

/-- C5: permuting the input rows leaves the aggregator output unchanged:
the same set of BOL keys, and for every key the same aggregate (counts,
extrema, spreads, buckets). -/
theorem aggregator_perm_invariant (P : String → Option Int)
    {rows1 rows2 : List InputRow} (h : rows1.Perm rows2) :
    (∀ b : String, b ∈ bolIds rows1 ↔ b ∈ bolIds rows2) ∧
    (∀ b : String, bolAggregateOf P rows1 b = bolAggregateOf P rows2 b) := by
  have hcont : (containersOf rows1).Perm (containersOf rows2) := h.filter _
  constructor
  · intro b
    simp only [bolIds, List.mem_dedup]
    exact (hcont.map (fun r => r.bol_id)).mem_iff
  · intro b
    exact aggregateGroup_perm P (hcont.filter (fun (r : InputRow) => r.bol_id == b))

/-- Concrete rows for the permutation witness. -/
def rowSwapA : InputRow :=
  { identifier := "c1", shipment_type := "CONTAINER", bol_id := "B5",
    eta := "t1", ata := "" }

/-- Second concrete row for the permutation witness. -/
def rowSwapB : InputRow :=
  { identifier := "c2", shipment_type := "CONTAINER", bol_id := "B5",
    eta := "", ata := "t2" }

/-- Witness for C5: swapping two concrete rows leaves the aggregate of their
BOL unchanged. -/
theorem aggregator_perm_invariant_witness :
    bolAggregateOf noParse [rowSwapA, rowSwapB] "B5"
      = bolAggregateOf noParse [rowSwapB, rowSwapA] "B5" :=
  (aggregator_perm_invariant noParse (List.Perm.swap rowSwapB rowSwapA [])).2 ("B5")

/-- Helper: bucket labels are pairwise distinct strings. -/
theorem bucketLabel_inj (a b : Bucket) (h : bucketLabel a = bucketLabel b) :
    a = b := by
  cases a <;> cases b <;> first | rfl | (exfalso; exact absurd h (by decide))

/-- Helper: every bucket occurs in the fixed enumeration. -/
theorem mem_allBuckets (bu : Bucket) : bu ∈ allBuckets := by
  cases bu <;> simp [allBuckets]

/-- Helper: the enumeration of buckets has no duplicates. -/
theorem allBuckets_nodup : allBuckets.Nodup := by decide

/-- Helper: membership in the per-metric summary rows. -/
theorem mem_bucketRowsAux {m : Metric} {cnt : Bucket → Nat} {bus : List Bucket}
    {row : SummaryRow} :
    row ∈ bucketRowsAux m cnt bus ↔
      ∃ bu ∈ bus, cnt bu ≠ 0 ∧
        row = { metric := m, bucket := bucketLabel bu,
                description := bucketDescription (bucketLabel bu),
                count := cnt bu } := by
  simp only [bucketRowsAux, List.mem_filterMap]
  constructor
  · rintro ⟨bu, hbu, hf⟩
    by_cases h0 : cnt bu = 0
    · rw [if_pos h0] at hf
      exact absurd hf (by simp)
    · rw [if_neg h0] at hf
      exact ⟨bu, hbu, h0, (Option.some.inj hf).symm⟩
  · rintro ⟨bu, hbu, h0, rfl⟩
    exact ⟨bu, hbu, by rw [if_neg h0]⟩

/-- Helper: every per-metric summary row carries its metric. -/
theorem metric_of_mem_bucketRowsAux {m : Metric} {cnt : Bucket → Nat}
    {bus : List Bucket} {row : SummaryRow} (h : row ∈ bucketRowsAux m cnt bus) :
    row.metric = m := by
  obtain ⟨bu, -, -, rfl⟩ := mem_bucketRowsAux.mp h
  rfl

/-- Helper: among the rows of one metric there is exactly one row per bucket
label with a non-zero count, and none for a zero count. -/
theorem countP_bucketRowsAux_label (m : Metric) (cnt : Bucket → Nat)
    (bus : List Bucket) (bu : Bucket) :
    bus.Nodup →
    (bucketRowsAux m cnt bus).countP
        (fun row => row.metric == m && row.bucket == bucketLabel bu)
      = if bu ∈ bus ∧ cnt bu ≠ 0 then 1 else 0 := by
  induction bus with
  | nil => intro _; simp [bucketRowsAux]
  | cons x t ih =>
    intro hnd
    rw [List.nodup_cons] at hnd
    obtain ⟨hx, hnt⟩ := hnd
    by_cases h0 : cnt x = 0
    · rw [bucketRowsAux, List.filterMap_cons, if_pos h0]
      rw [show List.filterMap _ t = bucketRowsAux m cnt t from rfl, ih hnt]
      by_cases hbx : bu = x
      · subst hbx
        simp [h0]
      · simp [List.mem_cons, hbx]
    · rw [bucketRowsAux, List.filterMap_cons, if_neg h0]
      rw [List.countP_cons]
      rw [show List.filterMap _ t = bucketRowsAux m cnt t from rfl, ih hnt]
      by_cases hbx : bu = x
      · subst hbx
        have hb : bu ∉ t := hx
        simp [hb, h0]
      · have hlab : ¬(bucketLabel x = bucketLabel bu) := by
          intro hh
          exact hbx ((bucketLabel_inj x bu hh).symm)
        simp [List.mem_cons, hbx, hlab]

/-- Helper: a predicate that rejects every row of the enclosed metric counts
no row of that metric's summary rows. -/
theorem countP_bucketRowsAux_of_metric (m : Metric) (cnt : Bucket → Nat)
    (bus : List Bucket) (q : SummaryRow → Bool)
    (hq : ∀ row : SummaryRow, row.metric = m → q row = false) :
    (bucketRowsAux m cnt bus).countP q = 0 := by
  rw [List.countP_eq_zero]
  intro row hrow
  simp [hq row (metric_of_mem_bucketRowsAux hrow)]

/-- Helper: the counts of one metric's summary rows sum to the sum of the
per-bucket counts; omitted zero-count buckets contribute nothing. -/
theorem sum_bucketRowsAux (m : Metric) (cnt : Bucket → Nat) (bus : List Bucket) :
    ((bucketRowsAux m cnt bus).map (fun row => row.count)).sum
      = (bus.map cnt).sum := by
  induction bus with
  | nil => rfl
  | cons x t ih =>
    rw [bucketRowsAux, List.filterMap_cons]
    by_cases h0 : cnt x = 0
    · rw [if_pos h0]
      rw [show List.filterMap _ t = bucketRowsAux m cnt t from rfl]
      simp [ih, h0]
    · rw [if_neg h0]
      rw [List.map_cons, List.sum_cons,
        show List.filterMap _ t = bucketRowsAux m cnt t from rfl]
      simp [ih]

/-- Helper: the four bucket tests partition any list of keys, so the bucket
counts sum to the list length. -/
theorem bucketCounts_total (l : List String) (f : String → Bucket) :
    (allBuckets.map (fun bu => l.countP (fun b => f b == bu))).sum = l.length := by
  simp only [allBuckets, List.map_cons, List.map_nil, List.sum_cons, List.sum_nil]
  induction l with
  | nil => rfl
  | cons x t ih =>
    simp only [List.countP_cons, List.length_cons]
    cases hf : f x <;> simp [hf] <;> omega


/-- C8: the summary holds, for each of ETA and ATA independently, exactly one
row per bucket label whose per-BOL count is non-zero (zero-count labels are
omitted), each such row carrying that count as its `count`; and exactly one
ATA_MIXED_PRESENCE row, always emitted with the mixed-BOL count, placed
last. -/
theorem summary_spec (P : String → Option Int) (rows : List InputRow) :
    ((summaryRows P rows).countP
        (fun row => row.metric == Metric.ATA_MIXED_PRESENCE) = 1) ∧
    (summaryRows P rows).getLast? = some (mixedSummaryRow P rows) ∧
    (mixedSummaryRow P rows).count = (mixed_ata_bols P rows).length ∧
    (∀ bu : Bucket,
      (summaryRows P rows).countP
          (fun row => row.metric == Metric.ETA && row.bucket == bucketLabel bu)
        = if etaBucketCount P rows bu = 0 then 0 else 1) ∧
    (∀ row ∈ summaryRows P rows, row.metric = Metric.ETA →
      ∃ bu : Bucket, etaBucketCount P rows bu ≠ 0 ∧ row.bucket = bucketLabel bu ∧
        row.count = etaBucketCount P rows bu) ∧
    (∀ bu : Bucket,
      (summaryRows P rows).countP
          (fun row => row.metric == Metric.ATA && row.bucket == bucketLabel bu)
        = if ataBucketCount P rows bu = 0 then 0 else 1) ∧
    (∀ row ∈ summaryRows P rows, row.metric = Metric.ATA →
      ∃ bu : Bucket, ataBucketCount P rows bu ≠ 0 ∧ row.bucket = bucketLabel bu ∧
        row.count = ataBucketCount P rows bu) := by
  refine ⟨?_, ?_, rfl, ?_, ?_, ?_, ?_⟩
  · rw [summaryRows, bucketRows, bucketRows, List.countP_append, List.countP_append,
      countP_bucketRowsAux_of_metric _ _ _ _ (fun row h => by rw [h]; decide),
      countP_bucketRowsAux_of_metric _ _ _ _ (fun row h => by rw [h]; decide)]
    simp [mixedSummaryRow]
  · rw [summaryRows, List.getLast?_concat]
  · intro bu
    rw [summaryRows, bucketRows, bucketRows, List.countP_append, List.countP_append,
      countP_bucketRowsAux_label _ _ _ bu allBuckets_nodup,
      countP_bucketRowsAux_of_metric _ _ _ _ (fun row h => by rw [h]; simp)]
    have hmix : (List.countP
        (fun row => row.metric == Metric.ETA && row.bucket == bucketLabel bu)
        [mixedSummaryRow P rows]) = 0 := by
      simp [mixedSummaryRow]
    rw [hmix]
    by_cases h0 : etaBucketCount P rows bu = 0 <;>
      simp [h0, mem_allBuckets bu]
  · intro row hrow hm
    rw [summaryRows] at hrow
    rcases List.mem_append.mp hrow with h12 | h4
    · rcases List.mem_append.mp h12 with h1 | h3
      · rw [bucketRows] at h1
        obtain ⟨bu, -, h0, rfl⟩ := mem_bucketRowsAux.mp h1
        exact ⟨bu, h0, rfl, rfl⟩
      · rw [bucketRows] at h3
        have hma := metric_of_mem_bucketRowsAux h3
        rw [hm] at hma
        exact absurd hma (by decide)
    · simp only [List.mem_singleton] at h4
      rw [h4] at hm
      simp [mixedSummaryRow] at hm
  · intro bu
    rw [summaryRows, bucketRows, bucketRows, List.countP_append, List.countP_append,
      countP_bucketRowsAux_of_metric _ _ _ _ (fun row h => by rw [h]; simp),
      countP_bucketRowsAux_label _ _ _ bu allBuckets_nodup]
    have hmix : (List.countP
        (fun row => row.metric == Metric.ATA && row.bucket == bucketLabel bu)
        [mixedSummaryRow P rows]) = 0 := by
      simp [mixedSummaryRow]
    rw [hmix]
    by_cases h0 : ataBucketCount P rows bu = 0 <;>
      simp [h0, mem_allBuckets bu]
  · intro row hrow hm
    rw [summaryRows] at hrow
    rcases List.mem_append.mp hrow with h12 | h4
    · rcases List.mem_append.mp h12 with h1 | h3
      · rw [bucketRows] at h1
        have hme := metric_of_mem_bucketRowsAux h1
        rw [hm] at hme
        exact absurd hme (by decide)
      · rw [bucketRows] at h3
        obtain ⟨bu, -, h0, rfl⟩ := mem_bucketRowsAux.mp h3
        exact ⟨bu, h0, rfl, rfl⟩
    · simp only [List.mem_singleton] at h4
      rw [h4] at hm
      simp [mixedSummaryRow] at hm

/-- Concrete summary row used by the C8 witness. -/
def etaNvtRow : SummaryRow :=
  { metric := Metric.ETA, bucket := "NO_VALID_TIMESTAMP",
    description := "No parsable timestamps for this metric in the BOL",
    count := 2 }

/-- Witness for C8: in the concrete mixed scenario the ETA summary row
carries the NO_VALID_TIMESTAMP label and the per-BOL bucket count. -/
theorem summary_spec_witness :
    ∃ bu : Bucket, etaBucketCount noParse mixedRows bu ≠ 0 ∧
      etaNvtRow.bucket = bucketLabel bu ∧
      etaNvtRow.count = etaBucketCount noParse mixedRows bu :=
  (summary_spec noParse mixedRows).2.2.2.2.1 etaNvtRow (by decide) rfl

/-- C9: the ETA bucket counts in the summary sum to the number of distinct
BOLs among container rows, and so do the ATA bucket counts. -/
theorem summary_totals (P : String → Option Int) (rows : List InputRow) :
    (((summaryRows P rows).filter (fun row => row.metric == Metric.ETA)).map
        (fun row => row.count)).sum = (bolIds rows).length ∧
    (((summaryRows P rows).filter (fun row => row.metric == Metric.ATA)).map
        (fun row => row.count)).sum = (bolIds rows).length := by
  constructor
  · rw [summaryRows, List.filter_append, List.filter_append]
    have hA : (bucketRows Metric.ETA (etaBucketCount P rows)).filter
        (fun row => row.metric == Metric.ETA)
          = bucketRows Metric.ETA (etaBucketCount P rows) := by
      rw [List.filter_eq_self]
      intro row hrow
      rw [bucketRows] at hrow
      simp [metric_of_mem_bucketRowsAux hrow]
    have hB : (bucketRows Metric.ATA (ataBucketCount P rows)).filter
        (fun row => row.metric == Metric.ETA) = [] := by
      rw [List.filter_eq_nil_iff]
      intro row hrow
      rw [bucketRows] at hrow
      simp [metric_of_mem_bucketRowsAux hrow]
    have hC : ([mixedSummaryRow P rows]).filter
        (fun row => row.metric == Metric.ETA) = [] := by
      simp [mixedSummaryRow]
    rw [hA, hB, hC, List.append_nil, List.append_nil, bucketRows,
      sum_bucketRowsAux]
    exact bucketCounts_total (bolIds rows)
      (fun b => (bolAggregateOf P rows b).eta_spread_bucket)
  · rw [summaryRows, List.filter_append, List.filter_append]
    have hA : (bucketRows Metric.ETA (etaBucketCount P rows)).filter
        (fun row => row.metric == Metric.ATA) = [] := by
      rw [List.filter_eq_nil_iff]
      intro row hrow
      rw [bucketRows] at hrow
      simp [metric_of_mem_bucketRowsAux hrow]
    have hB : (bucketRows Metric.ATA (ataBucketCount P rows)).filter
        (fun row => row.metric == Metric.ATA)
          = bucketRows Metric.ATA (ataBucketCount P rows) := by
      rw [List.filter_eq_self]
      intro row hrow
      rw [bucketRows] at hrow
      simp [metric_of_mem_bucketRowsAux hrow]
    have hC : ([mixedSummaryRow P rows]).filter
        (fun row => row.metric == Metric.ATA) = [] := by
      simp [mixedSummaryRow]
    rw [hA, hB, hC, List.nil_append, List.append_nil, bucketRows,
      sum_bucketRowsAux]
    exact bucketCounts_total (bolIds rows)
      (fun b => (bolAggregateOf P rows b).ata_spread_bucket)
